import Mathlib

/-!
Shallow embedding of the configuration-resolution core of the molecule
repository (src/molecule/config.py and src/molecule/api.py), together with
proofs about driver-name resolution, the multi-source deep merge, the default
configuration table, registry construction, the state-property freshness
check, interpolation error conversion, and the UserListMap collection.
-/

namespace Molecule

/-! ### YAML-like configuration values

A parsed configuration document is a nested structure of scalars, sequences
and mappings.  Mappings are modelled as association lists with string keys,
preserving insertion order as Python dicts do. -/

inductive Value where
  | null : Value
  | bool (b : Bool) : Value
  | nat (n : Nat) : Value
  | str (s : String) : Value
  | seq (l : List Value) : Value
  | map (m : List (String × Value)) : Value

abbrev Doc := List (String × Value)

/-- Python `d[key]` style lookup on an association list: the first binding of
the key wins (Python dicts have unique keys; first = only). -/
def lookupKey : Doc → String → Option Value
  | [], _ => none
  | (k, v) :: rest, key => if k = key then some v else lookupKey rest key

/-- Python `d[key] = v`: replace the value in place if the key is bound
(keeping its position, as dict insertion order does), else append a new
binding at the end. -/
def upsert : Doc → String → Value → Doc
  | [], key, v => [(key, v)]
  | (k, w) :: rest, key, v =>
    if k = key then (k, v) :: rest else (k, w) :: upsert rest key v

/-- Project a lookup result to a mapping, when it is one. -/
def asMap : Option Value → Option Doc
  | some (.map m) => some m
  | _ => none

/-- Modelled from the spec: `util.merge_dicts` (the `molecule.util` module is
not under src/).  Deep-merge semantics per the spec: for each key of the
overlay `b`, if both the accumulator and the overlay hold a mapping at that
key the mappings merge recursively, otherwise the overlay's value (sequence
or scalar) fully replaces the accumulator's, never concatenating. -/
def mergeMaps : Doc → Doc → Doc
  | a, [] => a
  | a, (k, v) :: rest =>
    match v, asMap (lookupKey a k) with
    | .map vb, some va => mergeMaps (upsert a k (.map (mergeMaps va vb))) rest
    | v, _ => mergeMaps (upsert a k v) rest
termination_by _a b => sizeOf b
decreasing_by
  all_goals simp_wf
  all_goals omega

/-- Characterisation of lookup through `upsert`. -/
theorem lookupKey_upsert (a : Doc) (k : String) (v : Value) (q : String) :
    lookupKey (upsert a k v) q = if k = q then some v else lookupKey a q := by
  induction a with
  | nil => simp [upsert, lookupKey]
  | cons hd tl ih =>
    obtain ⟨k0, w⟩ := hd
    by_cases h0 : k0 = k
    · subst h0
      by_cases hq : k0 = q
      · subst hq
        simp [upsert, lookupKey]
      · simp [upsert, lookupKey, hq]
    · by_cases hq : k0 = q
      · subst hq
        have hkq : ¬ k = k0 := fun h => h0 h.symm
        simp [upsert, h0, lookupKey, hkq]
      · simp [upsert, h0, lookupKey, hq, ih]

/-- An `upsert` never removes a binding: lookup stays defined. -/
theorem isSome_lookupKey_upsert (a : Doc) (k : String) (v : Value) (q : String)
    (h : (lookupKey a q).isSome) : (lookupKey (upsert a k v) q).isSome := by
  rw [lookupKey_upsert]
  by_cases hk : k = q <;> simp [hk, h]

/-- The value `mergeMaps` stores for one overlay key. -/
def mergedVal (a : Doc) (k : String) (v : Value) : Value :=
  match v, asMap (lookupKey a k) with
  | .map vb, some va => .map (mergeMaps va vb)
  | v, _ => v

theorem mergeMaps_nil (a : Doc) : mergeMaps a [] = a := by
  simp [mergeMaps]

theorem mergeMaps_cons (a : Doc) (k : String) (v : Value) (rest : Doc) :
    mergeMaps a ((k, v) :: rest) = mergeMaps (upsert a k (mergedVal a k v)) rest := by
  cases v <;> cases h : asMap (lookupKey a k) <;>
    simp [mergeMaps, mergedVal, h]

/-- A key absent from the overlay is untouched by the merge. -/
theorem lookupKey_mergeMaps_of_not_mem (a b : Doc) (k : String)
    (hb : lookupKey b k = none) : lookupKey (mergeMaps a b) k = lookupKey a k := by
  induction b generalizing a with
  | nil => rw [mergeMaps_nil]
  | cons hd rest ih =>
    obtain ⟨k0, v0⟩ := hd
    have hk0 : ¬ k0 = k := by
      intro h
      simp [lookupKey, h] at hb
    have hrest : lookupKey rest k = none := by
      simpa [lookupKey, hk0] using hb
    rw [mergeMaps_cons, ih _ hrest, lookupKey_upsert]
    simp [hk0]

/-- Keys of the accumulator survive any merge (later sources override values,
they never delete keys). -/
theorem isSome_lookupKey_mergeMaps (a b : Doc) (k : String)
    (h : (lookupKey a k).isSome) : (lookupKey (mergeMaps a b) k).isSome := by
  induction b generalizing a with
  | nil => rwa [mergeMaps_nil]
  | cons hd rest ih =>
    obtain ⟨k0, v0⟩ := hd
    rw [mergeMaps_cons]
    exact ih _ (isSome_lookupKey_upsert _ _ _ _ h)

/-- A key that occurs in no binding looks up to `none`. -/
theorem lookupKey_eq_none_of_not_mem (b : Doc) (k : String)
    (h : k ∉ b.map Prod.fst) : lookupKey b k = none := by
  induction b with
  | nil => rfl
  | cons hd tl ih =>
    obtain ⟨k0, v0⟩ := hd
    simp only [List.map_cons, List.mem_cons, not_or] at h
    have : ¬ k0 = k := fun he => h.1 he.symm
    simp [lookupKey, this, ih h.2]

/-- Specification of one merged lookup: the overlay's binding wins, except
that two mappings merge recursively, and absent overlay keys fall through. -/
def mergeLookupSpec (xa xb : Option Value) : Option Value :=
  match xb, xa with
  | none, x => x
  | some (.map vb), some (.map va) => some (.map (mergeMaps va vb))
  | some v, _ => some v

/-- Full characterisation of lookup through `mergeMaps`, for an overlay with
unique keys (as parsed YAML mappings have). -/
theorem lookupKey_mergeMaps (a b : Doc) (k : String)
    (hb : (b.map Prod.fst).Nodup) :
    lookupKey (mergeMaps a b) k = mergeLookupSpec (lookupKey a k) (lookupKey b k) := by
  induction b generalizing a with
  | nil => simp [mergeMaps_nil, mergeLookupSpec, lookupKey]
  | cons hd rest ih =>
    obtain ⟨k0, v0⟩ := hd
    simp only [List.map_cons, List.nodup_cons] at hb
    obtain ⟨hk0rest, hnrest⟩ := hb
    rw [mergeMaps_cons]
    by_cases hk : k0 = k
    · subst hk
      have hrest : lookupKey rest k0 = none :=
        lookupKey_eq_none_of_not_mem _ _ hk0rest
      rw [lookupKey_mergeMaps_of_not_mem _ _ _ hrest, lookupKey_upsert]
      simp only [if_pos rfl, lookupKey, mergedVal, mergeLookupSpec]
      cases v0 <;> cases hm : asMap (lookupKey a k0) <;>
        cases hv : lookupKey a k0 <;>
        simp_all [asMap, mergeLookupSpec] <;>
        (try cases hv2 : ‹Value›) <;> simp_all [asMap]
    · have : lookupKey ((k0, v0) :: rest) k = lookupKey rest k := by
        simp [lookupKey, hk]
      rw [this, ih _ hnrest, lookupKey_upsert]
      simp [hk]

/-! ### Default configuration table and the multi-source combine

`Config._get_defaults` (config.py 375-466).  The scenario name is the base
name of the scenario file's parent directory, or the literal "default" when
no scenario file is set (Python's `or "default"` also maps an empty base
name to "default"); path splitting itself is filesystem glue, so the model
receives the parent-directory base name directly. -/

def scenarioNameOf : Option String → String
  | none => "default"
  | some d => if d = "" then "default" else d

/-- Literal translation of the hardcoded default mapping returned by
`Config._get_defaults`. -/
def getDefaults (scenarioDir : Option String) : Doc :=
  [ ("dependency", .map
      [ ("name", .str "galaxy"),
        ("command", .null),
        ("enabled", .bool true),
        ("options", .map []),
        ("env", .map []) ]),
    ("driver", .map
      [ ("name", .str "default"),
        ("provider", .map [("name", .null)]),
        ("options", .map [("managed", .bool true)]),
        ("ssh_connection_options", .seq []),
        ("safe_files", .seq []) ]),
    ("platforms", .seq []),
    ("prerun", .bool true),
    ("role_name_check", .nat 0),
    ("provisioner", .map
      [ ("name", .str "ansible"),
        ("config_options", .map []),
        ("ansible_args", .seq []),
        ("connection_options", .map []),
        ("options", .map []),
        ("env", .map []),
        ("inventory", .map
          [ ("hosts", .map []),
            ("host_vars", .map []),
            ("group_vars", .map []),
            ("links", .map []) ]),
        ("children", .map []),
        ("playbooks", .map
          [ ("cleanup", .str "cleanup.yml"),
            ("create", .str "create.yml"),
            ("converge", .str "converge.yml"),
            ("destroy", .str "destroy.yml"),
            ("prepare", .str "prepare.yml"),
            ("side_effect", .str "side_effect.yml"),
            ("verify", .str "verify.yml") ]),
        ("log", .bool true) ]),
    ("scenario", .map
      [ ("name", .str (scenarioNameOf scenarioDir)),
        ("check_sequence", .seq
          [ .str "dependency", .str "cleanup", .str "destroy", .str "create",
            .str "prepare", .str "converge", .str "check", .str "cleanup",
            .str "destroy" ]),
        ("cleanup_sequence", .seq [.str "cleanup"]),
        ("converge_sequence", .seq
          [ .str "dependency", .str "create", .str "prepare", .str "converge" ]),
        ("create_sequence", .seq
          [ .str "dependency", .str "create", .str "prepare" ]),
        ("destroy_sequence", .seq
          [ .str "dependency", .str "cleanup", .str "destroy" ]),
        ("test_sequence", .seq
          [ .str "dependency", .str "cleanup", .str "destroy", .str "syntax",
            .str "create", .str "prepare", .str "converge", .str "idempotence",
            .str "side_effect", .str "verify", .str "cleanup", .str "destroy" ]) ]),
    ("verifier", .map
      [ ("name", .str "ansible"),
        ("enabled", .bool true),
        ("options", .map []),
        ("env", .map []),
        ("additional_files_or_dirs", .seq []) ]) ]

/-- `Config._combine` (config.py 328-361): start from the defaults, merge each
existing base config in order, then merge the scenario file when one is set.
`bases` are the parsed, interpolated documents of the base-config files that
exist (the filter over non-existent files, reading and YAML parsing are I/O
glue); `scenarioFile` carries the scenario parent-directory base name and the
parsed scenario document when `self.molecule_file` is set. -/
def combine (bases : List Doc) (scenarioFile : Option (String × Doc)) : Doc :=
  let d := bases.foldl mergeMaps (getDefaults (scenarioFile.map Prod.fst))
  match scenarioFile with
  | some (_, s) => mergeMaps d s
  | none => d

/-- Lookup along a path of nested mapping keys. -/
def lookupPath (m : Doc) : List String → Option Value
  | [] => some (.map m)
  | [k] => lookupKey m k
  | k :: rest =>
    match lookupKey m k with
    | some (.map m2) => lookupPath m2 rest
    | _ => none

/-- A path of nested keys is present in a document. -/
def hasPath (m : Doc) (p : List String) : Bool :=
  (lookupPath m p).isSome

/-- A key absent from every base config is untouched by the base-config
folding. -/
theorem lookupKey_foldl_of_absent (bases : List Doc) (d : Doc) (k : String)
    (h : ∀ b ∈ bases, lookupKey b k = none) :
    lookupKey (bases.foldl mergeMaps d) k = lookupKey d k := by
  induction bases generalizing d with
  | nil => rfl
  | cons b rest ih =>
    rw [List.foldl_cons, ih _ (fun x hx => h x (List.mem_cons_of_mem _ hx)),
      lookupKey_mergeMaps_of_not_mem _ _ _ (h b (List.mem_cons_self _ _))]

/-- Defined keys stay defined through the base-config folding. -/
theorem isSome_lookupKey_foldl (bases : List Doc) (d : Doc) (k : String)
    (h : (lookupKey d k).isSome) :
    (lookupKey (bases.foldl mergeMaps d) k).isSome := by
  induction bases generalizing d with
  | nil => exact h
  | cons b rest ih =>
    exact ih _ (isSome_lookupKey_mergeMaps _ _ _ h)

/-- C2: in every multi-source merge performed by `_combine`, a key only in the
scenario file appears unchanged in the result; a key in both defaults and the
scenario file takes the scenario file's value, with sequence and scalar values
fully replaced (never concatenated or appended) and mapping values merged
recursively. -/
theorem combine_merge_semantics (bases : List Doc) (name : String) (s : Doc)
    (k : String) (hnd : (s.map Prod.fst).Nodup) :
    ((∀ b ∈ bases, lookupKey b k = none) →
      lookupKey (getDefaults (some name)) k = none →
      lookupKey (combine bases (some (name, s))) k = lookupKey s k)
    ∧ (∀ v, lookupKey s k = some v → (∀ m, v ≠ .map m) →
      lookupKey (combine bases (some (name, s))) k = some v)
    ∧ (∀ va vb,
      lookupKey (bases.foldl mergeMaps (getDefaults (some name))) k
        = some (.map va) →
      lookupKey s k = some (.map vb) →
      lookupKey (combine bases (some (name, s))) k
        = some (.map (mergeMaps va vb))) := by
  have hc : lookupKey (combine bases (some (name, s))) k
      = mergeLookupSpec
          (lookupKey (bases.foldl mergeMaps (getDefaults (some name))) k)
          (lookupKey s k) := by
    simp only [combine, Option.map_some]
    exact lookupKey_mergeMaps _ _ _ hnd
  refine ⟨?_, ?_, ?_⟩
  · intro hb hd
    have hfold : lookupKey (bases.foldl mergeMaps (getDefaults (some name))) k
        = none := by
      rw [lookupKey_foldl_of_absent _ _ _ hb, hd]
    rw [hc, hfold]
    cases hs : lookupKey s k with
    | none => simp [mergeLookupSpec]
    | some v => cases v <;> simp [mergeLookupSpec]
  · intro v hv hnm
    rw [hc, hv]
    cases v with
    | map m => exact absurd rfl (hnm m)
    | null => cases hx : lookupKey _ k <;> simp [mergeLookupSpec]
    | bool b => cases hx : lookupKey _ k <;> simp [mergeLookupSpec]
    | nat n => cases hx : lookupKey _ k <;> simp [mergeLookupSpec]
    | str t => cases hx : lookupKey _ k <;> simp [mergeLookupSpec]
    | seq l => cases hx : lookupKey _ k <;> simp [mergeLookupSpec]
  · intro va vb ha hb
    rw [hc, ha, hb]
    rfl

/-- Witness for `combine_merge_semantics` at a concrete scenario document. -/
theorem combine_merge_semantics_witness :
    (([("x", Value.str "1"), ("platforms", Value.seq [Value.str "a"])].map
        Prod.fst).Nodup
      ∧ (∀ b ∈ ([] : List Doc), lookupKey b "x" = none)
      ∧ lookupKey (getDefaults (some "default")) "x" = none)
    ∧ lookupKey
        (combine []
          (some ("default",
            [("x", Value.str "1"), ("platforms", Value.seq [Value.str "a"])])))
        "x"
      = lookupKey [("x", Value.str "1"), ("platforms", Value.seq [Value.str "a"])] "x" :=
  ⟨⟨by simp, by simp, by rfl⟩,
    (combine_merge_semantics [] "default"
      [("x", Value.str "1"), ("platforms", Value.seq [Value.str "a"])] "x"
      (by simp)).1 (by simp) (by rfl)⟩

/-- C3: with an empty (or all non-existent) base-config list and no scenario
file, `_combine` returns exactly the hardcoded default mapping for the
scenario name "default", including the stated literal default values and the
fixed 12-step test sequence. -/
theorem combine_defaults_roundtrip :
    combine [] none = getDefaults none
    ∧ lookupPath (combine [] none) ["scenario", "name"] = some (.str "default")
    ∧ lookupPath (combine [] none) ["dependency", "name"] = some (.str "galaxy")
    ∧ lookupPath (combine [] none) ["driver", "name"] = some (.str "default")
    ∧ lookupPath (combine [] none) ["driver", "options", "managed"]
        = some (.bool true)
    ∧ lookupKey (combine [] none) "platforms" = some (.seq [])
    ∧ lookupKey (combine [] none) "prerun" = some (.bool true)
    ∧ lookupKey (combine [] none) "role_name_check" = some (.nat 0)
    ∧ lookupPath (combine [] none) ["provisioner", "name"]
        = some (.str "ansible")
    ∧ lookupPath (combine [] none) ["verifier", "name"] = some (.str "ansible")
    ∧ lookupPath (combine [] none) ["verifier", "enabled"] = some (.bool true)
    ∧ lookupPath (combine [] none) ["scenario", "test_sequence"]
        = some (.seq
            [ .str "dependency", .str "cleanup", .str "destroy", .str "syntax",
              .str "create", .str "prepare", .str "converge",
              .str "idempotence", .str "side_effect", .str "verify",
              .str "cleanup", .str "destroy" ]) :=
  ⟨rfl, rfl, rfl, rfl, rfl, rfl, rfl, rfl, rfl, rfl, rfl, rfl⟩

/-- C6 counterexample: a scenario file that overrides the default mapping
under "driver" with a scalar deletes the nested default sub-key
`driver.name` from the merged configuration, so not every nested default key
survives every merge. -/
theorem combine_nested_key_deleted :
    hasPath (getDefaults (some "default")) ["driver", "name"] = true
    ∧ hasPath
        (combine [] (some ("default", [("driver", Value.str "docker")])))
        ["driver", "name"] = false := by
  constructor
  · rfl
  · simp only [combine, Option.map_some]
    rw [mergeMaps_cons, mergeMaps_nil]
    rfl

/-- C6 amended: every top-level key of the hardcoded default mapping is
present in every merge result `_combine` produces; a nested default sub-key
is likewise preserved as long as every later source keeps a mapping (or no
binding at all) at its parent key, but it can be deleted when a later source
replaces the parent mapping with a non-mapping value. -/
theorem combine_default_keys_amended (bases : List Doc)
    (sf : Option (String × Doc)) (k : String)
    (h : (lookupKey (getDefaults (sf.map Prod.fst)) k).isSome) :
    (lookupKey (combine bases sf) k).isSome
    ∧ (∀ a b ma q, (b.map Prod.fst).Nodup →
        lookupKey a k = some (.map ma) → (lookupKey ma q).isSome →
        (lookupKey b k = none ∨ ∃ mb, lookupKey b k = some (.map mb)) →
        ∃ m2, lookupKey (mergeMaps a b) k = some (.map m2)
          ∧ (lookupKey m2 q).isSome) := by
  constructor
  · have hfold := isSome_lookupKey_foldl bases _ k h
    cases sf with
    | none => exact hfold
    | some p =>
      obtain ⟨name, s⟩ := p
      simpa [combine] using isSome_lookupKey_mergeMaps _ s k hfold
  · intro a b ma q hnd ha hq hb
    rw [lookupKey_mergeMaps _ _ _ hnd, ha]
    cases hb with
    | inl hnone =>
      rw [hnone]
      exact ⟨ma, rfl, hq⟩
    | inr hsome =>
      obtain ⟨mb, hmb⟩ := hsome
      rw [hmb]
      exact ⟨mergeMaps ma mb, rfl, isSome_lookupKey_mergeMaps _ _ _ hq⟩

/-- Witness for `combine_default_keys_amended` at the key "driver". -/
theorem combine_default_keys_amended_witness :
    (lookupKey (getDefaults none) "driver").isSome
    ∧ ((lookupKey (combine [] none) "driver").isSome
      ∧ (∀ a b ma q, (b.map Prod.fst).Nodup →
          lookupKey a "driver" = some (.map ma) → (lookupKey ma q).isSome →
          (lookupKey b "driver" = none
            ∨ ∃ mb, lookupKey b "driver" = some (.map mb)) →
          ∃ m2, lookupKey (mergeMaps a b) "driver" = some (.map m2)
            ∧ (lookupKey m2 q).isSome)) :=
  ⟨by rfl, combine_default_keys_amended [] none "driver" (by rfl)⟩

/-! ### Driver name resolution

`Config._get_driver_name` (config.py 266-303).  Python truthiness: a missing
or empty driver string from the state file or CLI is falsy; both are modelled
as `none`.  A fatal `util.sysexit_with_message` is the `Except.error` case
carrying the message; the Bool of a successful result records whether the
drift warning was logged before returning. -/

def cliConflictMsg (driverName c : String) : String :=
  "Instance(s) were created with the '" ++ driverName ++
    "' driver, but the subcommand is using '" ++ c ++ "' driver."

def notAvailableMsg (driverName stateFile : String) : String :=
  "Driver '" ++ driverName ++ "' from state-file '" ++ stateFile ++
    "' is not available."

def driftWarningMsg (driverName scenarioDriver : String) : String :=
  "Driver '" ++ driverName ++
    "' is currently in use but the scenario config has changed and now defines '"
    ++ scenarioDriver ++ "'."

/-- The `driver_name` selection chain of `_get_driver_name`: state first,
else CLI, else scenario config. -/
def winningName (stateDriver cliDriver : Option String)
    (scenarioDriver : String) : String :=
  stateDriver.getD (cliDriver.getD scenarioDriver)

def getDriverName (stateDriver cliDriver : Option String)
    (scenarioDriver : String) (registry : List String) (stateFile : String) :
    Except String (String × Bool) :=
  if cliDriver.any (fun c => c != winningName stateDriver cliDriver scenarioDriver) then
    .error (cliConflictMsg (winningName stateDriver cliDriver scenarioDriver)
      (cliDriver.getD ""))
  else if stateDriver.isSome
      && !(registry.contains (winningName stateDriver cliDriver scenarioDriver)) then
    .error (notAvailableMsg (winningName stateDriver cliDriver scenarioDriver)
      stateFile)
  else
    .ok (winningName stateDriver cliDriver scenarioDriver,
      scenarioDriver != winningName stateDriver cliDriver scenarioDriver)

/-- C1: whenever `_get_driver_name` returns a name, that name is chosen by
strict precedence among the candidates: the state-recorded driver when
present, else the CLI-supplied driver when present, else the driver from the
merged scenario config. -/
theorem driver_name_precedence (stateDriver cliDriver : Option String)
    (scenarioDriver : String) (registry : List String) (stateFile : String)
    (n : String) (w : Bool)
    (h : getDriverName stateDriver cliDriver scenarioDriver registry stateFile
      = .ok (n, w)) :
    n = match stateDriver, cliDriver with
      | some d, _ => d
      | none, some c => c
      | none, none => scenarioDriver := by
  cases stateDriver with
  | none =>
    cases cliDriver with
    | none =>
      simp only [getDriverName, winningName, Option.any_none, Option.getD_none,
        Option.isSome_none, Bool.false_and, Bool.false_eq_true, if_false,
        Except.ok.injEq, Prod.mk.injEq] at h
      exact h.1.symm
    | some c =>
      simp only [getDriverName, winningName, Option.any_some, Option.getD_none,
        Option.getD_some, bne_self_eq_false, Bool.false_eq_true, if_false,
        Option.isSome_none, Bool.false_and, Except.ok.injEq, Prod.mk.injEq] at h
      exact h.1.symm
  | some d =>
    cases cliDriver with
    | none =>
      simp only [getDriverName, winningName, Option.any_none, Option.getD_some,
        Bool.false_eq_true, if_false] at h
      split at h
      · exact absurd h (by simp)
      · simp only [Except.ok.injEq, Prod.mk.injEq] at h
        exact h.1.symm
    | some c =>
      simp only [getDriverName, winningName, Option.any_some,
        Option.getD_some] at h
      split at h
      · exact absurd h (by simp)
      · split at h
        · exact absurd h (by simp)
        · simp only [Except.ok.injEq, Prod.mk.injEq] at h
          exact h.1.symm

/-- Witness for `driver_name_precedence`: a state-pinned driver wins. -/
theorem driver_name_precedence_witness :
    getDriverName (some "docker") none "default" ["docker"] "sf"
      = .ok ("docker", true)
    ∧ "docker" = match (some "docker" : Option String), (none : Option String) with
      | some d, _ => d
      | none, some c => c
      | none, none => "default" :=
  ⟨by rfl,
    driver_name_precedence (some "docker") none "default" ["docker"] "sf"
      "docker" true (by rfl)⟩

/-- C4: a CLI-supplied driver that differs from the winning name makes
resolution abort fatally with a message naming both drivers, and no driver
name is returned. -/
theorem driver_cli_conflict_fatal (stateDriver : Option String) (c : String)
    (scenarioDriver : String) (registry : List String) (stateFile : String)
    (hne : c ≠ stateDriver.getD c) :
    getDriverName stateDriver (some c) scenarioDriver registry stateFile
      = .error (cliConflictMsg (stateDriver.getD c) c)
    ∧ (∃ pre mid post, cliConflictMsg (stateDriver.getD c) c
        = pre ++ stateDriver.getD c ++ mid ++ c ++ post)
    ∧ ∀ r, getDriverName stateDriver (some c) scenarioDriver registry stateFile
        ≠ .ok r := by
  have hwin : winningName stateDriver (some c) scenarioDriver
      = stateDriver.getD c := rfl
  have heq : getDriverName stateDriver (some c) scenarioDriver registry stateFile
      = .error (cliConflictMsg (stateDriver.getD c) c) := by
    unfold getDriverName
    rw [hwin]
    have hb : Option.any (fun x => x != stateDriver.getD c) (some c) = true := by
      simpa using hne
    rw [if_pos hb]
    rfl
  refine ⟨heq, ⟨"Instance(s) were created with the '",
    "' driver, but the subcommand is using '", "' driver.", rfl⟩, ?_⟩
  intro r hr
  rw [heq] at hr
  exact Except.noConfusion hr

/-- Witness for `driver_cli_conflict_fatal`: state pins "docker", the CLI
requests "podman". -/
theorem driver_cli_conflict_fatal_witness :
    ("podman" ≠ (some "docker" : Option String).getD "podman")
    ∧ (getDriverName (some "docker") (some "podman") "default" ["docker"] "sf"
        = .error (cliConflictMsg ((some "docker" : Option String).getD "podman") "podman")
      ∧ (∃ pre mid post, cliConflictMsg ((some "docker" : Option String).getD "podman") "podman"
          = pre ++ (some "docker" : Option String).getD "podman" ++ mid ++ "podman" ++ post)
      ∧ ∀ r, getDriverName (some "docker") (some "podman") "default" ["docker"] "sf"
          ≠ .ok r) :=
  ⟨by decide,
    driver_cli_conflict_fatal (some "docker") "podman" "default" ["docker"] "sf"
      (by decide)⟩

/-- C5 counterexample: with no state-recorded driver, a CLI-supplied driver
"podman" and a scenario file specifying "default", resolution succeeds with
"podman" and still logs the drift warning (Bool `true`), although the
difference from the scenario file is exactly the explicit CLI override — so
the warning is not emitted "if and only if the difference was not already an
explicit CLI override". -/
theorem driver_drift_warning_counterexample :
    getDriverName none (some "podman") "default" ["default", "podman"] "sf"
      = .ok ("podman", true) := by rfl

/-- C5 amended: whenever resolution succeeds, the drift warning is logged if
and only if the winning name differs from the scenario-file driver name,
regardless of how the winning name was supplied; in particular, with state
recording "docker" and the scenario file specifying "default", resolution
returns "docker", warns, and does not abort. -/
theorem driver_drift_warning_amended (stateDriver cliDriver : Option String)
    (scenarioDriver : String) (registry : List String) (stateFile : String)
    (n : String) (w : Bool)
    (h : getDriverName stateDriver cliDriver scenarioDriver registry stateFile
      = .ok (n, w)) :
    w = true ↔ n ≠ scenarioDriver := by
  unfold getDriverName at h
  split at h
  · exact absurd h (by simp)
  · split at h
    · exact absurd h (by simp)
    · simp only [Except.ok.injEq, Prod.mk.injEq] at h
      obtain ⟨hn, hw⟩ := h
      subst hn
      subst hw
      simp only [bne_iff_ne, ne_eq]
      exact ne_comm

/-- Witness for `driver_drift_warning_amended`: state records "docker", the
scenario file says "default"; resolution returns "docker" with the warning. -/
theorem driver_drift_warning_amended_witness :
    getDriverName (some "docker") none "default" ["docker"] "sf"
      = .ok ("docker", true)
    ∧ (true = true ↔ "docker" ≠ "default") :=
  ⟨by rfl,
    driver_drift_warning_amended (some "docker") none "default" ["docker"] "sf"
      "docker" true (by rfl)⟩

/-! ### The `state` cached property -/

/-- Modelled from the spec: the persisted per-scenario record of
`state.State` (the `molecule.state` module is not under src/): driver name,
created and converged flags, and the recorded modification time of the
scenario's config file. -/
structure StateRec where
  driver : Option String
  created : Bool
  converged : Bool
  moleculeYmlDateModified : Option Nat

/-- Modelled from the spec: a `state.State` object reads the persisted record
at construction; `change_state` writes a key and persists immediately.  The
`oid` tag is a construction counter, tracking object identity. -/
structure StateObj where
  oid : Nat
  record : StateRec

/-- `Config.state` (config.py 244-260): construct a State; when the scenario
file exists on disk, compare its modification time with the recorded one,
recording it via `change_state` when absent and logging a non-fatal warning
when different; then return a second, freshly constructed State.  The result
is (persisted record afterwards, warning logged?, returned object);
`nextOid` tags the first construction, so the returned object carries
`nextOid + 1`. -/
def stateProperty (store : StateRec) (fileExists : Bool) (modTime : Nat)
    (nextOid : Nat) : StateRec × Bool × StateObj :=
  let myState : StateObj := ⟨nextOid, store⟩
  let checked : StateRec × Bool :=
    if fileExists then
      match myState.record.moleculeYmlDateModified with
      | none => ({ store with moleculeYmlDateModified := some modTime }, false)
      | some t => (store, t != modTime)
    else (store, false)
  (checked.1, checked.2, ⟨nextOid + 1, checked.1⟩)

/-- C8: on access to `state` with the scenario file present, a missing
recorded timestamp is recorded into State; a differing recorded timestamp
logs a non-fatal warning and leaves the record unchanged; and in all cases
the property returns a freshly constructed State -- a second construction,
distinct from the object used for the check, re-reading the persisted
record. -/
theorem state_property_freshness (store : StateRec) (modTime : Nat)
    (nextOid : Nat) :
    (store.moleculeYmlDateModified = none →
      stateProperty store true modTime nextOid
        = ({ store with moleculeYmlDateModified := some modTime }, false,
            ⟨nextOid + 1, { store with moleculeYmlDateModified := some modTime }⟩))
    ∧ (∀ t, store.moleculeYmlDateModified = some t → t ≠ modTime →
      stateProperty store true modTime nextOid
        = (store, true, ⟨nextOid + 1, store⟩))
    ∧ (∀ fe, (stateProperty store fe modTime nextOid).2.2.oid ≠ nextOid
      ∧ (stateProperty store fe modTime nextOid).2.2.record
        = (stateProperty store fe modTime nextOid).1) := by
  refine ⟨?_, ?_, ?_⟩
  · intro hnone
    simp [stateProperty, hnone]
  · intro t ht hne
    simp [stateProperty, ht, bne_iff_ne, hne]
  · intro fe
    cases fe <;> cases hm : store.moleculeYmlDateModified <;>
      simp [stateProperty, hm]

/-- Witness for `state_property_freshness`: a first run (no recorded
timestamp) records the file's modification time and returns a second, fresh
State. -/
theorem state_property_freshness_witness :
    (StateRec.moleculeYmlDateModified ⟨none, false, false, none⟩ = none)
    ∧ stateProperty ⟨none, false, false, none⟩ true 5 0
      = (⟨none, false, false, some 5⟩, false, ⟨1, ⟨none, false, false, some 5⟩⟩) :=
  ⟨rfl, (state_property_freshness ⟨none, false, false, none⟩ 5 0).1 rfl⟩

/-! ### Interpolation failure conversion -/

/-- The `interpolation.InvalidInterpolation` error (the
`molecule.interpolation` module is not under src/; the fields are those
`_interpolate` reads): the location of the offending reference and its
text. -/
structure InvalidInterpolation where
  place : String
  string : String

/-- `Config._interpolate` (config.py 363-373): run the interpolator and
convert an `InvalidInterpolation` into a fatal user-facing abort whose
message names the config file path, the error location and the offending
text.  The interpolator itself is external here, so it enters as its
outcome on the given source text. -/
def interpolateConfig (moleculeFile : String)
    (outcome : Except InvalidInterpolation String) : Except String String :=
  match outcome with
  | .ok s => .ok s
  | .error e => .error
      ("parsing config file '" ++ moleculeFile ++ "'.\n\n" ++ e.place ++ "\n"
        ++ e.string)

/-- C9: an interpolation error is converted into a fatal abort whose message
includes the config file path, the offending text and its location, and no
partial interpolation result is returned. -/
theorem interpolate_error_fatal (moleculeFile : String)
    (e : InvalidInterpolation) (outcome : Except InvalidInterpolation String)
    (h : outcome = .error e) :
    interpolateConfig moleculeFile outcome
      = .error ("parsing config file '" ++ moleculeFile ++ "'.\n\n" ++ e.place
          ++ "\n" ++ e.string)
    ∧ (∃ p1 p2 p3,
        "parsing config file '" ++ moleculeFile ++ "'.\n\n" ++ e.place ++ "\n"
          ++ e.string
        = p1 ++ moleculeFile ++ p2 ++ e.place ++ p3 ++ e.string)
    ∧ ∀ s, interpolateConfig moleculeFile outcome ≠ .ok s := by
  subst h
  refine ⟨rfl, ⟨"parsing config file '", "'.\n\n", "\n", rfl⟩, ?_⟩
  intro s hs
  exact Except.noConfusion hs

/-- Witness for `interpolate_error_fatal` at a concrete file and error. -/
theorem interpolate_error_fatal_witness :
    ((Except.error ⟨"line 3", "$\x7bUNSET\x7d"⟩
        : Except InvalidInterpolation String)
      = .error ⟨"line 3", "$\x7bUNSET\x7d"⟩)
    ∧ (interpolateConfig "molecule/default/molecule.yml"
        (.error ⟨"line 3", "$\x7bUNSET\x7d"⟩)
      = .error ("parsing config file '" ++ "molecule/default/molecule.yml"
          ++ "'.\n\n" ++ "line 3" ++ "\n" ++ "$\x7bUNSET\x7d")
      ∧ (∃ p1 p2 p3,
          "parsing config file '" ++ "molecule/default/molecule.yml"
            ++ "'.\n\n" ++ "line 3" ++ "\n" ++ "$\x7bUNSET\x7d"
          = p1 ++ "molecule/default/molecule.yml" ++ p2 ++ "line 3" ++ p3
            ++ "$\x7bUNSET\x7d")
      ∧ ∀ s, interpolateConfig "molecule/default/molecule.yml"
          (.error ⟨"line 3", "$\x7bUNSET\x7d"⟩) ≠ .ok s) :=
  ⟨rfl, interpolate_error_fatal "molecule/default/molecule.yml"
    ⟨"line 3", "$\x7bUNSET\x7d"⟩ _ rfl⟩

/-! ### UserListMap

`api.UserListMap` (api.py 16-36): a `UserList` whose `append` also binds the
item in the instance `__dict__` under `str(item)`.  In CPython, the backing
list of a `UserList` is its `data` attribute, which itself lives in
`__dict__` under the key "data"; the model keeps `__dict__` explicit.  Items
are modelled by their names (`str(item)` is the item itself). -/

inductive DictVal where
  | backing (l : List String) : DictVal
  | item (p : String) : DictVal

abbrev PyDict := List (String × DictVal)

def dictGet : PyDict → String → Option DictVal
  | [], _ => none
  | (k, v) :: rest, key => if k = key then some v else dictGet rest key

def dictSet : PyDict → String → DictVal → PyDict
  | [], key, v => [(key, v)]
  | (k, w) :: rest, key, v =>
    if k = key then (k, v) :: rest else (k, w) :: dictSet rest key v

structure UserListMap where
  dict : PyDict

/-- A fresh `UserListMap()`: `UserList.__init__` sets the `data` attribute to
an empty list. -/
def UserListMap.init : UserListMap := ⟨[("data", .backing [])]⟩

/-- `UserListMap.append`: `self.__dict__[str(item)] = item`, then
`super().append(item)`, which appends to the `data` attribute.  When the
item's name is "data", the first assignment has clobbered the backing list,
so the list append fails with an attribute error (`Except.error`). -/
def UserListMap.append (s : UserListMap) (item : String) :
    Except Unit UserListMap :=
  match dictGet (dictSet s.dict item (.item item)) "data" with
  | some (.backing l) =>
    .ok ⟨dictSet (dictSet s.dict item (.item item)) "data"
      (.backing (l ++ [item]))⟩
  | _ => .error ()

/-- `UserListMap.__getitem__` with an integer index: positional access into
the backing list. -/
def UserListMap.getIdx (s : UserListMap) (i : Nat) : Option String :=
  match dictGet s.dict "data" with
  | some (.backing l) => l.get? i
  | _ => none

/-- `UserListMap.__getitem__` with a non-integer key: `self.__dict__[i]`
(`none` models the KeyError). -/
def UserListMap.getName (s : UserListMap) (name : String) : Option DictVal :=
  dictGet s.dict name

/-- `UserListMap.get`: `self.__dict__.get(key, default)`. -/
def UserListMap.get (s : UserListMap) (key : String) (dflt : DictVal) :
    DictVal :=
  (dictGet s.dict key).getD dflt

/-- A loop of `append` calls starting from an arbitrary collection; the
first failing append fails the whole loop. -/
def buildFrom (s : UserListMap) : List String → Except Unit UserListMap
  | [] => .ok s
  | r :: rest =>
    match UserListMap.append s r with
    | .ok s1 => buildFrom s1 rest
    | .error e => .error e

/-- A `UserListMap` built by appending `items` in order to a fresh
collection. -/
def UserListMap.build (items : List String) : Except Unit UserListMap :=
  buildFrom UserListMap.init items

theorem dictGet_dictSet (a : PyDict) (k : String) (v : DictVal) (q : String) :
    dictGet (dictSet a k v) q = if k = q then some v else dictGet a q := by
  induction a with
  | nil => simp [dictSet, dictGet]
  | cons hd tl ih =>
    obtain ⟨k0, w⟩ := hd
    by_cases h0 : k0 = k
    · subst h0
      by_cases hq : k0 = q
      · subst hq
        simp [dictSet, dictGet]
      · simp [dictSet, dictGet, hq]
    · by_cases hq : k0 = q
      · subst hq
        have hkq : ¬ k = k0 := fun h => h0 (Eq.symm h)
        simp [dictSet, h0, dictGet, hkq]
      · simp [dictSet, h0, dictGet, hq, ih]

/-- The shape invariant of a collection built by successful appends of
`items`: "data" holds the backing list of all items in order, and every
other bound name is the name of an appended item, bound to that item. -/
def WFMap (s : UserListMap) (items : List String) : Prop :=
  dictGet s.dict "data" = some (.backing items)
  ∧ ∀ n, n ≠ "data" →
      dictGet s.dict n = if n ∈ items then some (.item n) else none

theorem wfmap_init : WFMap UserListMap.init [] := by
  constructor
  · rfl
  · intro n hn
    have hne : ¬ "data" = n := fun h => hn (Eq.symm h)
    simp [UserListMap.init, dictGet, hne]

/-- Appending an item named "data" always fails: the name assignment has
already replaced the backing list, so the list append raises. -/
theorem append_data_fails (s : UserListMap) :
    UserListMap.append s "data" = .error () := by
  unfold UserListMap.append
  rw [dictGet_dictSet]
  simp

/-- A successful append extends both the backing list and the name table. -/
theorem append_wfmap (s : UserListMap) (items : List String) (item : String)
    (hwf : WFMap s items) (hne : item ≠ "data") :
    ∃ s2, UserListMap.append s item = .ok s2 ∧ WFMap s2 (items ++ [item]) := by
  obtain ⟨hdata, hnames⟩ := hwf
  have hget : dictGet (dictSet s.dict item (.item item)) "data"
      = some (.backing items) := by
    rw [dictGet_dictSet, if_neg hne, hdata]
  refine ⟨⟨dictSet (dictSet s.dict item (.item item)) "data"
    (.backing (items ++ [item]))⟩, ?_, ?_, ?_⟩
  · unfold UserListMap.append
    rw [hget]
  · simp [dictGet_dictSet]
  · intro n hn
    rw [dictGet_dictSet, if_neg (fun h => hn (Eq.symm h)), dictGet_dictSet]
    by_cases hni : item = n
    · subst hni
      simp
    · have hne2 : n ≠ item := fun h => hni (Eq.symm h)
      rw [if_neg hni, hnames n hn]
      have hiff : (n ∈ items ++ [item]) ↔ (n ∈ items) := by
        simp [List.mem_append, hne2]
      simp [hiff]

/-- Folding successful appends preserves the invariant, and a successful
build cannot have appended anything named "data". -/
theorem buildFrom_wfmap (rest : List String) (s : UserListMap)
    (items : List String) (hwf : WFMap s items) (s2 : UserListMap)
    (h : buildFrom s rest = .ok s2) :
    WFMap s2 (items ++ rest) ∧ "data" ∉ rest := by
  induction rest generalizing s items with
  | nil =>
    simp only [buildFrom] at h
    cases h
    refine ⟨by simpa using hwf, by simp⟩
  | cons r rtl ih =>
    by_cases hr : r = "data"
    · subst hr
      simp only [buildFrom, append_data_fails] at h
      exact Except.noConfusion h
    · obtain ⟨s1, hok, hwf1⟩ := append_wfmap s items r hwf hr
      simp only [buildFrom, hok] at h
      obtain ⟨h1, h2⟩ := ih s1 (items ++ [r]) hwf1 h
      have hne2 : ¬ "data" = r := fun he => hr (Eq.symm he)
      refine ⟨by simpa using h1, by simp [hne2, h2]⟩

/-- C10: in a `UserListMap` built by appends, every appended item is
retrievable positionally by integer index and by name via indexing or `get`
with the key `str(item)`; `get` with an unbound name returns the supplied
default — except that the reserved name "data" is bound to the collection's
internal backing list, never to a plugin, and appending an item whose name
is "data" fails outright, so such an item can never be fetched by name. -/
theorem user_list_map_access (items : List String) (s : UserListMap)
    (h : UserListMap.build items = .ok s) :
    (∀ item ∈ items, s.getName item = some (.item item)
      ∧ ∀ dflt, s.get item dflt = .item item)
    ∧ s.getName "data" = some (.backing items)
    ∧ (∀ j, s.getIdx j = items.get? j)
    ∧ (∀ n, n ∉ items → n ≠ "data" → ∀ dflt, s.get n dflt = dflt)
    ∧ (∀ s0, UserListMap.append s0 "data" = .error ()) := by
  obtain ⟨hwf, hnd⟩ :=
    buildFrom_wfmap items UserListMap.init [] wfmap_init s h
  rw [List.nil_append] at hwf
  obtain ⟨hdata, hnames⟩ := hwf
  refine ⟨?_, hdata, ?_, ?_, append_data_fails⟩
  · intro item hmem
    have hne : item ≠ "data" := fun he => hnd (he ▸ hmem)
    have hx := hnames item hne
    rw [if_pos hmem] at hx
    exact ⟨hx, fun dflt => by simp [UserListMap.get, hx]⟩
  · intro j
    simp [UserListMap.getIdx, hdata]
  · intro n hnmem hne dflt
    have hx := hnames n hne
    rw [if_neg hnmem] at hx
    simp [UserListMap.get, hx]

/-- Witness for `user_list_map_access` on a concrete two-item build. -/
theorem user_list_map_access_witness :
    UserListMap.build ["a", "b"]
      = .ok ⟨[("data", .backing ["a", "b"]), ("a", .item "a"),
          ("b", .item "b")]⟩
    ∧ UserListMap.getName
        ⟨[("data", .backing ["a", "b"]), ("a", .item "a"), ("b", .item "b")]⟩
        "data"
      = some (.backing ["a", "b"]) :=
  ⟨by rfl,
    (user_list_map_access ["a", "b"]
      ⟨[("data", .backing ["a", "b"]), ("a", .item "a"), ("b", .item "b")]⟩
      (by rfl)).2.1⟩

/-! ### Plugin registry construction

`api.drivers` and `api.verifiers` (api.py 47-84).  A plugin is modelled by
its name; each plugin factory's outcome is either a constructed plugin or the
message of the exception the per-plugin try/except caught.  The loop appends
into a `UserListMap`, so an exception raised by the append itself (a plugin
named "data" clobbers the backing list, and every later append then fails
too) is caught by the same try/except; the final `plugins.sort()` runs
outside any try and delegates to `self.data.sort()`, so it raises uncaught
once the `data` attribute no longer holds the backing list. -/

def okOf : Except String String → Option String
  | .ok p => some p
  | .error _ => none

def errOf : Except String String → Option String
  | .error e => some e
  | .ok _ => none

/-- `plugins.append(p(config))` inside the loop's try/except: on success the
extended collection; on an exception from the list append, the `__dict__`
assignment that already ran persists and the exception is caught by the loop
(Bool `true`). -/
def tryAppend (s : UserListMap) (item : String) : UserListMap × Bool :=
  match UserListMap.append s item with
  | .ok s2 => (s2, false)
  | .error _ => (⟨dictSet s.dict item (.item item)⟩, true)

/-- One iteration of the `for p in pm.get_plugins()` loop (api.py 58-62 /
78-82): a factory failure is caught and logged; a constructed plugin is
appended, and an append failure is caught and logged by the same
try/except. -/
def registryStep (acc : UserListMap × List String) (r : Except String String) :
    UserListMap × List String :=
  match r with
  | .error e => (acc.1, acc.2 ++ [e])
  | .ok p =>
    match tryAppend acc.1 p with
    | (s1, false) => (s1, acc.2)
    | (s1, true) => (s1, acc.2 ++ ["Failed to load " ++ p ++ " driver"])

/-- `plugins.sort()`: `UserList.sort` delegates to `self.data.sort()`; when a
"data"-named plugin has clobbered the `data` attribute, the attribute is no
longer a list and the call raises -- uncaught, so fatal for the registry. -/
def sortPlugins (s : UserListMap) : Except Unit UserListMap :=
  match dictGet s.dict "data" with
  | some (.backing l) =>
    .ok ⟨dictSet s.dict "data"
      (.backing (l.mergeSort (fun a b => decide (a ≤ b))))⟩
  | _ => .error ()

/-- `api.drivers` / `api.verifiers`: run every factory inside the per-plugin
try/except, appending successes into the `UserListMap` and logging failures,
then sort the collection and return it together with the logged errors. -/
def buildRegistry (outcomes : List (Except String String)) :
    Except Unit (UserListMap × List String) :=
  match sortPlugins (outcomes.foldl registryStep (UserListMap.init, [])).1 with
  | .ok sorted => .ok (sorted, (outcomes.foldl registryStep (UserListMap.init, [])).2)
  | .error e => .error e

theorem length_filterMap_errOf (outcomes : List (Except String String)) :
    (outcomes.filterMap errOf).length
      = (outcomes.filter (fun r => match r with
          | .error _ => true
          | .ok _ => false)).length := by
  induction outcomes with
  | nil => rfl
  | cons r rest ih => cases r <;> simp [errOf, ih, List.filter]

theorem mem_filterMap_okOf (outcomes : List (Except String String))
    (p : String) :
    p ∈ outcomes.filterMap okOf ↔ Except.ok p ∈ outcomes := by
  rw [List.mem_filterMap]
  constructor
  · rintro ⟨r, hr, hok⟩
    cases r with
    | ok q =>
      simp only [okOf, Option.some.injEq] at hok
      exact hok ▸ hr
    | error e => simp [okOf] at hok
  · intro hp
    exact ⟨.ok p, hp, rfl⟩

/-- As long as no successful factory constructs a plugin named "data", the
loop keeps the collection invariant, collects exactly the successes and logs
exactly the factory failures. -/
theorem registry_loop_wfmap (outcomes : List (Except String String)) :
    ∀ (s : UserListMap) (items log : List String),
      Except.ok "data" ∉ outcomes → WFMap s items →
      ∃ s2, outcomes.foldl registryStep (s, log)
          = (s2, log ++ outcomes.filterMap errOf)
        ∧ WFMap s2 (items ++ outcomes.filterMap okOf) := by
  induction outcomes with
  | nil =>
    intro s items log _ hwf
    exact ⟨s, by simp, by simpa using hwf⟩
  | cons r rest ih =>
    intro s items log hnd hwf
    have hndr : Except.ok "data" ∉ rest :=
      fun hx => hnd (List.mem_cons_of_mem _ hx)
    cases r with
    | error e =>
      rw [List.foldl_cons]
      have hstep : registryStep (s, log) (.error e) = (s, log ++ [e]) := rfl
      rw [hstep]
      obtain ⟨s2, h1, h2⟩ := ih s items (log ++ [e]) hndr hwf
      refine ⟨s2, ?_, by simpa [okOf] using h2⟩
      rw [h1]
      simp [errOf]
    | ok p =>
      have hp : p ≠ "data" := by
        intro he
        subst he
        exact hnd (List.mem_cons_self _ _)
      obtain ⟨s1, hok, hwf1⟩ := append_wfmap s items p hwf hp
      rw [List.foldl_cons]
      have hstep : registryStep (s, log) (.ok p) = (s1, log) := by
        simp [registryStep, tryAppend, hok]
      rw [hstep]
      obtain ⟨s2, h1, h2⟩ := ih s1 (items ++ [p]) log hndr hwf1
      refine ⟨s2, ?_, ?_⟩
      · rw [h1]
        simp [errOf]
      · simpa [okOf] using h2

/-- C7 counterexample: three well-formed factories, the second constructing a
plugin named "data".  Its append clobbers the `data` attribute and raises
(caught, logged); the append of the later well-formed plugin "b" then also
fails (caught, logged), excluding "b" from the collection; and the final
`plugins.sort()` raises uncaught, so registry construction aborts -- refuting
"all well-formed plugins are still included" and "registry construction
never aborts" at this input. -/
theorem registry_data_plugin_counterexample :
    buildRegistry [Except.ok "a", Except.ok "data", Except.ok "b"] = .error ()
    ∧ ([Except.ok "a", Except.ok "data", Except.ok "b"].foldl registryStep
        (UserListMap.init, [])).2
      = ["Failed to load data driver", "Failed to load b driver"] :=
  ⟨rfl, rfl⟩

/-- C7 amended: for every registry construction in which no successful
factory constructs a plugin named "data" (the key reserved by the
`UserListMap` for its backing list), a failure raised by an individual
plugin factory is isolated per-plugin: the error is logged, the broken
plugin is excluded, all well-formed plugins are in the returned collection,
and construction completes without aborting.  A "data"-named plugin instead
corrupts the collection: later appends fail and the final sort raises,
aborting construction. -/
theorem registry_isolates_plugin_failures_amended
    (outcomes : List (Except String String))
    (hnd : Except.ok "data" ∉ outcomes) :
    ∃ s, buildRegistry outcomes = .ok (s, outcomes.filterMap errOf)
      ∧ (∃ l, dictGet s.dict "data" = some (.backing l)
          ∧ ∀ p, p ∈ l ↔ Except.ok p ∈ outcomes)
      ∧ (outcomes.filterMap errOf).length
        = (outcomes.filter (fun r => match r with
            | .error _ => true
            | .ok _ => false)).length := by
  obtain ⟨s2, hfold, hwf⟩ :=
    registry_loop_wfmap outcomes UserListMap.init [] [] hnd wfmap_init
  rw [List.nil_append] at hwf
  obtain ⟨hdata, hnames⟩ := hwf
  have hsort : sortPlugins s2
      = .ok ⟨dictSet s2.dict "data"
          (.backing ((outcomes.filterMap okOf).mergeSort
            (fun a b => decide (a ≤ b))))⟩ := by
    unfold sortPlugins
    rw [hdata]
  refine ⟨⟨dictSet s2.dict "data"
      (.backing ((outcomes.filterMap okOf).mergeSort
        (fun a b => decide (a ≤ b))))⟩, ?_,
    ⟨(outcomes.filterMap okOf).mergeSort (fun a b => decide (a ≤ b)),
      ?_, ?_⟩, ?_⟩
  · unfold buildRegistry
    rw [hfold]
    simp only [List.nil_append]
    rw [hsort]
  · rw [dictGet_dictSet]
    simp
  · intro p
    rw [List.mem_mergeSort, mem_filterMap_okOf]
  · exact length_filterMap_errOf outcomes

/-- Witness for `registry_isolates_plugin_failures_amended`: one well-formed
and one throwing factory give a collection holding the well-formed plugin
and a log holding the one error. -/
theorem registry_isolates_plugin_failures_amended_witness :
    (Except.ok "data" ∉ [Except.ok "delegated", Except.error "boom"])
    ∧ (∃ s, buildRegistry [Except.ok "delegated", Except.error "boom"]
        = .ok (s, [Except.ok "delegated", Except.error "boom"].filterMap errOf)
      ∧ (∃ l, dictGet s.dict "data" = some (.backing l)
          ∧ ∀ p, p ∈ l
              ↔ Except.ok p ∈ [Except.ok "delegated", Except.error "boom"])
      ∧ ([Except.ok "delegated", Except.error "boom"].filterMap errOf).length
        = ([Except.ok "delegated", Except.error "boom"].filter
            (fun r => match r with
              | .error _ => true
              | .ok _ => false)).length) :=
  ⟨by simp, registry_isolates_plugin_failures_amended
    [Except.ok "delegated", Except.error "boom"] (by simp)⟩

end Molecule
